import Mathlib

/-!
Verification of the zombie-shooter core: wave scheduler, agent AI/movement,
and the damage/invincibility rules, shallowly embedded from the TypeScript
source (`ZombieManager`, `Zombie`, `Player`).

Numbers: JS `number` values that only ever hold exact decimal literals and
their sums/products are embedded as `ℚ`; timestamps (`Date.now()`, ms) as `ℤ`;
3-D geometry (positions, distances via `Math.sqrt`) as `ℝ`.
-/

namespace ZombieShooter

/-! ## Zombie kind parameterization (`Zombie.getZombieProperties`) -/

/-- The three zombie kinds (`ZombieType` enum). -/
inductive ZombieType where
  | WALKER
  | RUNNER
  | TANK
deriving DecidableEq, Repr

/-- Kind-specific stats (`ZombieProperties`); rendering-only fields
(`color`, `scale`) are omitted. -/
structure ZombieProperties where
  health : ℚ
  damage : ℚ
  moveSpeed : ℚ
  attackRange : ℚ
  attackCooldown : ℚ
  detectionRange : ℚ
  scoreValue : ℚ
deriving DecidableEq, Repr

/-- Embeds `Zombie.getZombieProperties`: static lookup of kind stats. -/
def getZombieProperties : ZombieType → ZombieProperties
  | .WALKER =>
    { health := 100, damage := 10, moveSpeed := 2, attackRange := 5.0,
      attackCooldown := 1.5, detectionRange := 15, scoreValue := 100 }
  | .RUNNER =>
    { health := 70, damage := 8, moveSpeed := 4, attackRange := 4.8,
      attackCooldown := 1.0, detectionRange := 20, scoreValue := 150 }
  | .TANK =>
    { health := 250, damage := 25, moveSpeed := 1.5, attackRange := 5.5,
      attackCooldown := 2.0, detectionRange := 12, scoreValue := 250 }

/-! ## Defender damage model (`Player.takeDamage`) -/

/-- The slice of `Player` state that `takeDamage` reads and writes.
`lastDamageTime` is a `Date.now()` millisecond timestamp. -/
structure PlayerState where
  health : ℚ
  isDead : Bool
  lastDamageTime : ℤ
deriving DecidableEq, Repr

/-- The `damageInvincibilityTime` constant: 1000 ms of invincibility after taking damage. -/
def damageInvincibilityTime : ℤ := 1000

/-- Embeds `Player.takeDamage(amount)` at clock reading `currentTime` (ms):
no-op when dead; fully suppressed inside the invincibility window;
otherwise caps the hit at 30, records the damage time, subtracts,
and clamps health at 0 (dying at 0). -/
def Player.takeDamage (s : PlayerState) (amount : ℚ) (currentTime : ℤ) :
    PlayerState :=
  if s.isDead then s
  else if currentTime - s.lastDamageTime < damageInvincibilityTime then s
  else
    let cappedDamage := min amount 30
    let s' : PlayerState :=
      { health := s.health - cappedDamage, isDead := s.isDead,
        lastDamageTime := currentTime }
    if s'.health ≤ 0 then { s' with health := 0, isDead := true } else s'

/-! ## Agent damage intake (`Zombie.takeDamage`) -/

/-- The slice of `Zombie` state that its `takeDamage` touches. -/
structure ZombieHealthState where
  health : ℚ
  isDead : Bool
deriving DecidableEq, Repr

/-- Embeds `Zombie.takeDamage(amount) -> killed`: `false`-no-op when dead;
subtracts, clamps at 0 and dies (returning `true`) when health reaches 0. -/
def Zombie.takeDamage (s : ZombieHealthState) (amount : ℚ) :
    ZombieHealthState × Bool :=
  if s.isDead then (s, false)
  else
    let h := s.health - amount
    if h ≤ 0 then ({ health := 0, isDead := true }, true)
    else ({ health := h, isDead := false }, false)

/-! ## Wave configuration (`ZombieManager.getWaveConfig`) -/

/-- The `WaveConfig` value object. -/
structure WaveConfig where
  totalZombies : ℕ
  spawnRate : ℚ
  walkerPercent : ℚ
  runnerPercent : ℚ
  tankPercent : ℚ
deriving DecidableEq, Repr

/-- Embeds `ZombieManager.getWaveConfig(waveNumber)`: linear base counts/rates,
tiered kind mix at waves 3/5/8/12, spawn rate clamped at 4. -/
def getWaveConfig (waveNumber : ℕ) : WaveConfig :=
  let baseConfig : WaveConfig :=
    { totalZombies := 5 + waveNumber * 2, spawnRate := 1.0 + waveNumber * 0.2,
      walkerPercent := 1, runnerPercent := 0, tankPercent := 0 }
  let c3 := if waveNumber ≥ 3 then
      { baseConfig with runnerPercent := 0.2, walkerPercent := 0.8 }
    else baseConfig
  let c5 := if waveNumber ≥ 5 then
      { c3 with runnerPercent := 0.3, walkerPercent := 0.6, tankPercent := 0.1 }
    else c3
  let c8 := if waveNumber ≥ 8 then
      { c5 with runnerPercent := 0.4, walkerPercent := 0.4, tankPercent := 0.2 }
    else c5
  let c12 := if waveNumber ≥ 12 then
      { c8 with runnerPercent := 0.4, walkerPercent := 0.3, tankPercent := 0.3 }
    else c8
  { c12 with spawnRate := min c12.spawnRate 4 }

/-! ## Wave lifecycle (`ZombieManager.startNewWave` / `update`) -/

/-- The counters of `ZombieManager` that govern spawning and wave
completion. `totalZombies` plays both the role of the spawn target in the
interval callback and of `zombiesRemainingInWave` (which `startNewWave`
sets to `waveConfig.totalZombies` and nothing afterwards modifies). -/
structure WaveState where
  zombiesSpawnedInWave : ℕ
  totalZombies : ℕ
  liveZombies : ℕ
  waveActive : Bool
deriving DecidableEq, Repr

/-- One firing of the spawn interval: spawn (and count) a zombie only while
`zombiesSpawnedInWave < totalZombies`; otherwise the interval is cleared and
nothing happens. -/
def spawnTimerTick (s : WaveState) : WaveState :=
  if s.zombiesSpawnedInWave < s.totalZombies then
    { s with zombiesSpawnedInWave := s.zombiesSpawnedInWave + 1,
             liveZombies := s.liveZombies + 1 }
  else s

/-- Removal of a dead zombie from the live array during
`ZombieManager.update`. -/
def removeZombie (s : WaveState) : WaveState :=
  { s with liveZombies := s.liveZombies - 1 }

/-- The wave-completion test of `ZombieManager.update`:
`waveActive && zombies.length === 0 && zombiesSpawnedInWave >= zombiesRemainingInWave`. -/
def waveCompleteCheck (s : WaveState) : Bool :=
  s.waveActive && s.liveZombies == 0 &&
    decide (s.totalZombies ≤ s.zombiesSpawnedInWave)

/-- States reachable within one wave: `startNewWave` resets the counters to
`⟨0, T, 0, true⟩` (no live zombies of the new wave yet), after which the
spawn interval fires and dead zombies are removed, in any interleaving. -/
inductive WaveReachable (T : ℕ) : WaveState → Prop where
  | start : WaveReachable T ⟨0, T, 0, true⟩
  | spawn {s} : WaveReachable T s → WaveReachable T (spawnTimerTick s)
  | remove {s} : WaveReachable T s → WaveReachable T (removeZombie s)

/-! ## Swarm-scaled attack damage (`Zombie.attackPlayer`) -/

/-- The cap `Math.min(this.properties.damage, 10)`, the base-damage cap
of `attackPlayer`. -/
def cappedBaseDamage (type : ZombieType) : ℚ :=
  min (getZombieProperties type).damage 10

/-- The swarm multiplier `Math.min(3.0, 1 + nearbyZombiesCount * 0.1)`. -/
def swarmMultiplier (nearbyZombiesCount : ℕ) : ℚ :=
  min 3.0 (1 + nearbyZombiesCount * 0.1)

/-- Embeds `adjustedDamage = Math.ceil(Math.min(damage, 10) * multiplier)`:
the amount `attackPlayer` passes to `player.takeDamage`, as a function of
the nearby-zombie count. -/
def adjustedDamage (type : ZombieType) (nearbyZombiesCount : ℕ) : ℤ :=
  ⌈cappedBaseDamage type * swarmMultiplier nearbyZombiesCount⌉

/-! ## Attack gating (`Zombie.update` lines 972–978 and `attackPlayer`) -/

/-- Attack-timing state of one zombie: `lastAttackTime` is the `Date.now()`
(ms) stamp of the last applied attack; the `isAttacking` flag, set by
`attackPlayer` and reset by a 1000 ms `setTimeout`, is modelled as the time
`attackingUntil` at which it reverts to `false`. The constructor starts
both at 0. -/
structure ZombieAttackState where
  lastAttackTime : ℤ
  attackingUntil : ℤ
deriving DecidableEq, Repr

/-- One `Zombie.update` pass through the attack logic at clock `now` (ms),
with the current distance to the player: `attackPlayer` is invoked when
`distanceToPlayer <= attackRange` and `Date.now() - lastAttackTime >
attackCooldown` (the raw property value 1.5 / 1.0 / 2.0 compared against
milliseconds); `attackPlayer` itself bails out while `isAttacking`,
otherwise damages the player, stamps `lastAttackTime = Date.now()` and holds
`isAttacking` for 1000 ms. Returns the new state and whether damage was
applied. -/
def zombieAttackTick (type : ZombieType) (s : ZombieAttackState) (now : ℤ)
    (distanceToPlayer : ℚ) : ZombieAttackState × Bool :=
  if distanceToPlayer ≤ (getZombieProperties type).attackRange ∧
      (getZombieProperties type).attackCooldown < ((now - s.lastAttackTime : ℤ) : ℚ) then
    if now < s.attackingUntil then (s, false)
    else ({ lastAttackTime := now, attackingUntil := now + 1000 }, true)
  else (s, false)

/-! ## 3-D geometry (`THREE.Vector3` as used by the agent code) -/

open scoped Classical

/-- A `THREE.Vector3`. -/
structure Vec3 where
  x : ℝ
  y : ℝ
  z : ℝ

/-- Componentwise `a.sub(b)` / `subVectors(a, b)`. -/
def vsub (a b : Vec3) : Vec3 := ⟨a.x - b.x, a.y - b.y, a.z - b.z⟩

/-- Componentwise sum (used only in proofs, to split a displacement). -/
def vadd (a b : Vec3) : Vec3 := ⟨a.x + b.x, a.y + b.y, a.z + b.z⟩

/-- The `Vector3.length()` Euclidean norm. -/
noncomputable def norm3 (v : Vec3) : ℝ := Real.sqrt (v.x ^ 2 + v.y ^ 2 + v.z ^ 2)

/-- The `a.distanceTo(b)` Euclidean distance. -/
noncomputable def dist3 (a b : Vec3) : ℝ := norm3 (vsub a b)

/-- Embeds `Vector3.normalize()`: divide componentwise by the length (THREE divides
by `length || 1`; for the zero vector both conventions return the zero
vector, since in Lean division by `0` yields `0`). -/
noncomputable def normalize3 (v : Vec3) : Vec3 :=
  ⟨v.x / norm3 v, v.y / norm3 v, v.z / norm3 v⟩

/-! ## Agent movement (`Zombie.moveTowardsPlayer`) -/

/-- The JS `Math.atan2(y, x)`, i.e. the argument of the point `(x, y)`. -/
noncomputable def atan2 (y x : ℝ) : ℝ := Complex.arg ⟨x, y⟩

/-- The JS remainder `a % b` (truncated division). -/
noncomputable def jsMod (a b : ℝ) : ℝ :=
  a - b * (if 0 ≤ a / b then (⌊a / b⌋ : ℝ) else (⌈a / b⌉ : ℝ))

/-- The loop of `moveTowardsPlayer` that tracks the closest other zombie to
the prospective position (first minimum wins, as in the source's strict
`<` scan). Returns the closest position and its distance, or `none` when
there are no other zombies. -/
noncomputable def findClosest (newPosition : Vec3) (others : List Vec3) :
    Option (Vec3 × ℝ) :=
  others.foldl
    (fun acc other =>
      match acc with
      | none => some (other, dist3 newPosition other)
      | some (_, closestDistance) =>
        if dist3 newPosition other < closestDistance then
          some (other, dist3 newPosition other)
        else acc)
    none

/-- Embeds `Zombie.moveTowardsPlayer(deltaTime)`: one movement step of the zombie at
`p` pursuing the player at `q`. `health` feeds the formation-angle hack,
`rand1`/`rand2` are the two `Math.random()` draws of the repulsion branch,
and `others` are the positions of the *other* zombies in the manager's array
(the source loop skips the zombie itself). Returns the updated position. -/
noncomputable def moveTowardsPlayer (type : ZombieType) (p q : Vec3)
    (health deltaTime rand1 rand2 : ℝ) (others : List Vec3) : Vec3 :=
  let props := getZombieProperties type
  let distanceToPlayer := dist3 p q
  if distanceToPlayer ≤ (props.attackRange : ℝ) then p
  else
    let direction := normalize3 (vsub q p)
    let moveDistance := (props.moveSpeed : ℝ) * deltaTime
    let effectiveMoveDistance := max moveDistance 0.01
    let distanceToAttackRange := distanceToPlayer - (props.attackRange : ℝ)
    let adjustedMoveDistance :=
      if distanceToAttackRange < effectiveMoveDistance then
        distanceToAttackRange * 0.9
      else effectiveMoveDistance
    let newPosition : Vec3 :=
      ⟨p.x + direction.x * adjustedMoveDistance, p.y,
        p.z + direction.z * adjustedMoveDistance⟩
    let minZombieDistance : ℝ := 1.5
    let adjustedMinDistance :=
      minZombieDistance * (0.8 + min (distanceToPlayer / 30) 1.5)
    let nearbyZombies :=
      (others.filter
        (fun o => decide (dist3 newPosition o < adjustedMinDistance * 1.5))).length
    if nearbyZombies > 2 ∧ distanceToPlayer < 10 then
      let angleToPlayer := atan2 (q.x - p.x) (q.z - p.z)
      let uniqueAngleOffset := jsMod health 100 / 100 * Real.pi
      let formationRadius := max 3.0 (distanceToPlayer * 0.7)
      let formationAngle := angleToPlayer + uniqueAngleOffset
      let formationX := q.x + Real.sin formationAngle * formationRadius
      let formationZ := q.z + Real.cos formationAngle * formationRadius
      let formationDir := normalize3 ⟨formationX - p.x, 0, formationZ - p.z⟩
      let formationSpeed := adjustedMoveDistance * 0.6
      ⟨p.x + formationDir.x * formationSpeed, p.y,
        p.z + formationDir.z * formationSpeed⟩
    else
      match findClosest newPosition others with
      | some (closestZombiePos, closestDistance) =>
        if closestDistance < adjustedMinDistance then
          let repulsionDir := normalize3 (vsub p closestZombiePos)
          let repulsionStrength :=
            max 0.5 (1.2 - closestDistance / adjustedMinDistance)
          let blended : Vec3 :=
            ⟨direction.x + repulsionDir.x * repulsionStrength +
                (rand1 - 0.5) * 0.3,
              direction.y,
              direction.z + repulsionDir.z * repulsionStrength +
                (rand2 - 0.5) * 0.3⟩
          let newDirection := normalize3 blended
          let collisionAdjustedMoveDistance := adjustedMoveDistance * 0.7
          ⟨p.x + newDirection.x * collisionAdjustedMoveDistance, p.y,
            p.z + newDirection.z * collisionAdjustedMoveDistance⟩
        else newPosition
      | none => newPosition

/-! ## The nearby-zombie count and damage actually passed by `attackPlayer` -/

/-- The fields of a manager-array entry that `attackPlayer`'s nearby filter
reads. -/
structure ZombieRef where
  position : Vec3
  isDead : Bool

/-- The count in `attackPlayer` of zombies near the player:
`zombies.filter(z => !z.isDead && z.position.distanceTo(player.position) < 5).length`
over the manager's whole array (the attacker itself included). -/
noncomputable def nearbyZombiesCount (zombies : List ZombieRef)
    (playerPosition : Vec3) : ℕ :=
  (zombies.filter
    (fun z => !z.isDead && decide (dist3 z.position playerPosition < 5))).length

/-- The damage amount `attackPlayer` passes to `player.takeDamage`, as a
function of the manager's zombie array and the player position. -/
noncomputable def attackDamagePassed (type : ZombieType)
    (zombies : List ZombieRef) (playerPosition : Vec3) : ℤ :=
  adjustedDamage type (nearbyZombiesCount zombies playerPosition)

/-- Modelled from the claim's words, for comparison with the code: C1 says
the amount passed to the defender equals the attacker's kind-specific base
damage multiplied by `min(3.0, 1 + 0.1 × nearbyCount)`. -/
def claimC1Damage (type : ZombieType) (nearbyCount : ℕ) : ℚ :=
  (getZombieProperties type).damage * min 3.0 (1 + 0.1 * (nearbyCount : ℚ))

/-- The position reached from `p` by the direct-pursuit step that covers 90%
of the remaining gap to the attack range (the branch of `moveTowardsPlayer`
taken when the gap is smaller than one tick's travel distance and neither
congestion nor repulsion applies). -/
noncomputable def prospect90 (type : ZombieType) (p q : Vec3) : Vec3 :=
  ⟨p.x + (normalize3 (vsub q p)).x *
      ((dist3 p q - ((getZombieProperties type).attackRange : ℝ)) * 0.9),
    p.y,
    p.z + (normalize3 (vsub q p)).z *
      ((dist3 p q - ((getZombieProperties type).attackRange : ℝ)) * 0.9)⟩

/-! ## Geometry lemmas -/

theorem norm3_nonneg (v : Vec3) : 0 ≤ norm3 v := Real.sqrt_nonneg _

theorem sq_norm3 (v : Vec3) : norm3 v ^ 2 = v.x ^ 2 + v.y ^ 2 + v.z ^ 2 := by
  unfold norm3
  exact Real.sq_sqrt (by positivity)

theorem inner_le_norm3 (a b : Vec3) :
    a.x * b.x + a.y * b.y + a.z * b.z ≤ norm3 a * norm3 b := by
  have ha := norm3_nonneg a
  have hb := norm3_nonneg b
  have hprod : (norm3 a * norm3 b) ^ 2 =
      (a.x ^ 2 + a.y ^ 2 + a.z ^ 2) * (b.x ^ 2 + b.y ^ 2 + b.z ^ 2) := by
    rw [mul_pow, sq_norm3, sq_norm3]
  nlinarith [hprod, sq_nonneg (a.x * b.y - a.y * b.x),
    sq_nonneg (a.x * b.z - a.z * b.x), sq_nonneg (a.y * b.z - a.z * b.y),
    mul_nonneg ha hb,
    sq_nonneg (norm3 a * norm3 b + (a.x * b.x + a.y * b.y + a.z * b.z))]

theorem norm3_add_le (u v : Vec3) : norm3 (vadd u v) ≤ norm3 u + norm3 v := by
  have h0 : 0 ≤ norm3 u + norm3 v := add_nonneg (norm3_nonneg u) (norm3_nonneg v)
  have h1 : norm3 (vadd u v) ^ 2 =
      (u.x + v.x) ^ 2 + (u.y + v.y) ^ 2 + (u.z + v.z) ^ 2 := by
    rw [sq_norm3]
    simp [vadd]
  have h2 := sq_norm3 u
  have h3 := sq_norm3 v
  have h4 := inner_le_norm3 u v
  have hsq : norm3 (vadd u v) ^ 2 ≤ (norm3 u + norm3 v) ^ 2 := by nlinarith
  exact le_of_pow_le_pow_left₀ two_ne_zero h0 hsq

theorem dist3_triangle (a b c : Vec3) : dist3 a c ≤ dist3 a b + dist3 b c := by
  have h : vsub a c = vadd (vsub a b) (vsub b c) := by
    unfold vsub vadd
    congr 1 <;> ring
  unfold dist3
  rw [h]
  exact norm3_add_le _ _

theorem norm3_horizontal (u : Vec3) (s : ℝ) (hs : 0 ≤ s) :
    norm3 ⟨u.x * s, 0, u.z * s⟩ ≤ s * norm3 u := by
  unfold norm3
  have h1 : (u.x * s) ^ 2 + (0 : ℝ) ^ 2 + (u.z * s) ^ 2 =
      s ^ 2 * (u.x ^ 2 + u.z ^ 2) := by ring
  rw [h1, Real.sqrt_mul (sq_nonneg s), Real.sqrt_sq hs]
  apply mul_le_mul_of_nonneg_left _ hs
  apply Real.sqrt_le_sqrt
  nlinarith [sq_nonneg u.y]

theorem norm3_normalize3_le_one (v : Vec3) : norm3 (normalize3 v) ≤ 1 := by
  by_cases h : norm3 v = 0
  · have hx : normalize3 v = ⟨0, 0, 0⟩ := by simp [normalize3, h]
    rw [hx]
    show Real.sqrt ((0 : ℝ) ^ 2 + (0 : ℝ) ^ 2 + (0 : ℝ) ^ 2) ≤ 1
    norm_num
  · have h1 : norm3 (normalize3 v) =
        Real.sqrt ((v.x ^ 2 + v.y ^ 2 + v.z ^ 2) / norm3 v ^ 2) := by
      show Real.sqrt ((v.x / norm3 v) ^ 2 + (v.y / norm3 v) ^ 2 +
          (v.z / norm3 v) ^ 2) = _
      rw [div_pow, div_pow, div_pow, div_add_div_same, div_add_div_same]
    rw [h1, ← sq_norm3 v, div_self (pow_ne_zero 2 h), Real.sqrt_one]

/-- A step of length at most `s ≥ 0` in the horizontal plane (with vertical
direction component discarded, as all the movement writes do) brings the
mover at most `s` closer to the target. -/
theorem dist3_prospective (p q u : Vec3) (s : ℝ) (hu : norm3 u ≤ 1)
    (hs : 0 ≤ s) :
    dist3 p q - s ≤ dist3 ⟨p.x + u.x * s, p.y, p.z + u.z * s⟩ q := by
  have htri := dist3_triangle p ⟨p.x + u.x * s, p.y, p.z + u.z * s⟩ q
  have hstep : dist3 p ⟨p.x + u.x * s, p.y, p.z + u.z * s⟩ ≤ s := by
    have h1 : dist3 p ⟨p.x + u.x * s, p.y, p.z + u.z * s⟩ =
        norm3 ⟨-(u.x * s), 0, -(u.z * s)⟩ := by
      unfold dist3 vsub
      congr 1 <;> ring
    have h2 : norm3 ⟨-(u.x * s), 0, -(u.z * s)⟩ = norm3 ⟨u.x * s, 0, u.z * s⟩ := by
      unfold norm3
      congr 1
      ring
    calc dist3 p ⟨p.x + u.x * s, p.y, p.z + u.z * s⟩
        = norm3 ⟨u.x * s, 0, u.z * s⟩ := by rw [h1, h2]
      _ ≤ s * norm3 u := norm3_horizontal u s hs
      _ ≤ s * 1 := mul_le_mul_of_nonneg_left hu hs
      _ = s := mul_one s
  linarith

/-- Every branch of `moveTowardsPlayer` — direct pursuit, formation mode, and
repulsion mode — keeps a zombie that starts strictly outside its attack range
at distance at least `attackRange` from the player. -/
theorem moveTowardsPlayer_keeps_range (type : ZombieType) (p q : Vec3)
    (health deltaTime rand1 rand2 : ℝ) (others : List Vec3)
    (h : ((getZombieProperties type).attackRange : ℝ) < dist3 p q) :
    ((getZombieProperties type).attackRange : ℝ) ≤
      dist3 (moveTowardsPlayer type p q health deltaTime rand1 rand2 others) q := by
  have hgap0 : 0 < dist3 p q - ((getZombieProperties type).attackRange : ℝ) := by
    linarith
  have heff0 : (0 : ℝ) ≤
      max (((getZombieProperties type).moveSpeed : ℝ) * deltaTime) 0.01 :=
    le_trans (by norm_num) (le_max_right _ _)
  simp only [moveTowardsPlayer]
  rw [if_neg (not_le.mpr h)]
  split_ifs
  all_goals try split
  all_goals try split_ifs
  all_goals exact le_trans (by linarith) (dist3_prospective p q _ _ (norm3_normalize3_le_one _) (by linarith))

/-- When the remaining gap to the attack range is smaller than one tick's
travel distance and neither the congestion nor the repulsion adjustment
applies at the prospective position, `moveTowardsPlayer` moves exactly 90%
of the remaining gap, straight towards the player. -/
theorem moveTowardsPlayer_direct_90 (type : ZombieType) (p q : Vec3)
    (health deltaTime rand1 rand2 : ℝ) (others : List Vec3)
    (h : ((getZombieProperties type).attackRange : ℝ) < dist3 p q)
    (hgap : dist3 p q - ((getZombieProperties type).attackRange : ℝ) <
      max (((getZombieProperties type).moveSpeed : ℝ) * deltaTime) 0.01)
    (hcong : ¬(2 < (others.filter (fun o => decide (dist3 (prospect90 type p q) o <
        1.5 * (0.8 + min (dist3 p q / 30) 1.5) * 1.5))).length ∧
        dist3 p q < 10))
    (hclosest : ∀ cz cd, findClosest (prospect90 type p q) others = some (cz, cd) →
      1.5 * (0.8 + min (dist3 p q / 30) 1.5) ≤ cd) :
    moveTowardsPlayer type p q health deltaTime rand1 rand2 others =
      prospect90 type p q := by
  unfold prospect90 at hcong hclosest ⊢
  simp only [moveTowardsPlayer]
  rw [if_neg (not_le.mpr h), if_pos hgap, if_neg hcong]
  split
  next cz cd heq => rw [if_neg (not_lt.mpr (hclosest cz cd heq))]
  next heq => rfl

/-! ## Claim theorems -/

/-- C1 (counterexample): the claimed formula `base × min(3.0, 1 + 0.1·n)` does
not match the code. A Tank attacking with no zombie near the player passes
`ceil(min(25, 10) · 1) = 10` damage, while the claim's formula gives
`25 · 1 = 25`. -/
theorem C1_counterexample :
    attackDamagePassed ZombieType.TANK [] ⟨0, 0, 0⟩ = 10 ∧
    claimC1Damage ZombieType.TANK (nearbyZombiesCount [] ⟨0, 0, 0⟩) = 25 ∧
    (attackDamagePassed ZombieType.TANK [] ⟨0, 0, 0⟩ : ℚ) ≠
      claimC1Damage ZombieType.TANK (nearbyZombiesCount [] ⟨0, 0, 0⟩) := by
  have hn : nearbyZombiesCount [] (⟨0, 0, 0⟩ : Vec3) = 0 := rfl
  have h10 : attackDamagePassed ZombieType.TANK [] ⟨0, 0, 0⟩ = 10 := by
    simp only [attackDamagePassed, adjustedDamage, hn]
    norm_num [cappedBaseDamage, swarmMultiplier, getZombieProperties, min_def]
  have h25 : claimC1Damage ZombieType.TANK (nearbyZombiesCount [] ⟨0, 0, 0⟩) = 25 := by
    rw [hn]
    norm_num [claimC1Damage, getZombieProperties, min_def]
  refine ⟨h10, h25, ?_⟩
  rw [h10, h25]
  norm_num

/-- C1 (amended): the damage an agent passes to the defender's `takeDamage`
equals `ceil(min(base, 10) × min(3.0, 1 + 0.1 × nearbyCount))`, where
`nearbyCount` is the number of live agents of the manager's array within 5
units of the defender; the result is then still subject to DamageModel's
cap. -/
theorem C1_swarm_damage_formula (type : ZombieType) (zombies : List ZombieRef)
    (playerPosition : Vec3) :
    attackDamagePassed type zombies playerPosition =
      ⌈min (getZombieProperties type).damage 10 *
        min 3.0 (1 + 0.1 * ((zombies.filter (fun z => !z.isDead &&
          decide (dist3 z.position playerPosition < 5))).length : ℚ))⌉ := by
  conv_rhs => rw [mul_comm (0.1 : ℚ)]
  rfl

/-- C2 (code bug): the cooldown gate compares `Date.now()` milliseconds with
the raw `attackCooldown` property (1.5 / 1.0 / 2.0, meant as seconds), so it
passes after only a couple of milliseconds; the only effective rate limit is
the 1000 ms `isAttacking` timeout. A Tank in range attacks at t = 100000 ms
and again at t = 101500 ms — twice within its stated 2.0 s cooldown. -/
theorem C2_cooldown_gate_in_milliseconds :
    (zombieAttackTick ZombieType.TANK ⟨0, 0⟩ 100000 5).2 = true ∧
    (zombieAttackTick ZombieType.TANK
      (zombieAttackTick ZombieType.TANK ⟨0, 0⟩ 100000 5).1 101500 5).2 = true ∧
    ((101500 : ℤ) - 100000 < 2000) := by
  have h1 : zombieAttackTick ZombieType.TANK ⟨0, 0⟩ 100000 5 =
      (⟨100000, 101000⟩, true) := by
    norm_num [zombieAttackTick, getZombieProperties]
  have h2 : zombieAttackTick ZombieType.TANK ⟨100000, 101000⟩ 101500 5 =
      (⟨101500, 102500⟩, true) := by
    norm_num [zombieAttackTick, getZombieProperties]
  refine ⟨?_, ?_, by norm_num⟩
  · rw [h1]
  · rw [h1, h2]

/-- C3 (counterexample): with health 20, a raw hit of 50 (no invincibility
active) floors health at 0 — a decrease of 20, not of "exactly 30". -/
theorem C3_counterexample :
    (damageInvincibilityTime ≤ (2000 : ℤ) - 0) ∧ ((30 : ℚ) < 50) ∧
    (Player.takeDamage ⟨20, false, 0⟩ 50 2000).health ≠ 20 - 30 := by
  refine ⟨by norm_num [damageInvincibilityTime], by norm_num, ?_⟩
  norm_num [Player.takeDamage, damageInvincibilityTime, min_def]

/-- C3 (amended): for `rawAmount > 30` on a living, non-invincible defender,
health decreases by exactly 30 except that it is floored at 0; in no case
does it decrease by more than 30. -/
theorem C3_damage_cap (s : PlayerState) (amount : ℚ) (currentTime : ℤ)
    (hAlive : s.isDead = false)
    (hNoInv : ¬(currentTime - s.lastDamageTime < damageInvincibilityTime))
    (hBig : 30 < amount) :
    (Player.takeDamage s amount currentTime).health = max (s.health - 30) 0 ∧
    s.health - (Player.takeDamage s amount currentTime).health ≤ 30 := by
  have hmin : min amount 30 = 30 := min_eq_right hBig.le
  unfold Player.takeDamage
  simp only [hAlive, Bool.false_eq_true, if_false, if_neg hNoInv, hmin]
  split_ifs with h0
  · refine ⟨?_, ?_⟩
    · show (0 : ℚ) = max (s.health - 30) 0
      exact (max_eq_right h0).symm
    · show s.health - 0 ≤ 30
      linarith
  · refine ⟨?_, ?_⟩
    · show s.health - 30 = max (s.health - 30) 0
      exact (max_eq_left (by linarith)).symm
    · show s.health - (s.health - 30) ≤ 30
      linarith

theorem C3_damage_cap_witness :
    (⟨100, false, 0⟩ : PlayerState).isDead = false ∧
    ¬((2000 : ℤ) - (⟨100, false, 0⟩ : PlayerState).lastDamageTime <
      damageInvincibilityTime) ∧
    ((30 : ℚ) < 50) ∧
    ((Player.takeDamage ⟨100, false, 0⟩ 50 2000).health =
        max ((100 : ℚ) - 30) 0 ∧
      (100 : ℚ) - (Player.takeDamage ⟨100, false, 0⟩ 50 2000).health ≤ 30) :=
  ⟨rfl, by decide, by norm_num,
    C3_damage_cap ⟨100, false, 0⟩ 50 2000 rfl (by decide) (by norm_num)⟩

/-- C4: once a `takeDamage` call has successfully applied damage at `t1`, a
second call arriving at `t2` within the invincibility window is entirely
suppressed: the defender's state is exactly the post-first-call state. -/
theorem C4_invincibility_applies_once (s : PlayerState) (a1 a2 : ℚ)
    (t1 t2 : ℤ) (hAlive : s.isDead = false)
    (hReady : ¬(t1 - s.lastDamageTime < damageInvincibilityTime))
    (hOrder : t1 ≤ t2) (hWin : t2 - t1 < damageInvincibilityTime) :
    Player.takeDamage (Player.takeDamage s a1 t1) a2 t2 =
      Player.takeDamage s a1 t1 := by
  have hlast : (Player.takeDamage s a1 t1).isDead = true ∨
      ((Player.takeDamage s a1 t1).isDead = false ∧
        (Player.takeDamage s a1 t1).lastDamageTime = t1) := by
    unfold Player.takeDamage
    simp only [hAlive, Bool.false_eq_true, if_false, if_neg hReady]
    split_ifs with h0
    · left
      rfl
    · right
      exact ⟨rfl, rfl⟩
  rcases hlast with hdead | ⟨halive, hlt⟩
  · conv_lhs => rw [Player.takeDamage]
    rw [hdead]
    simp
  · conv_lhs => rw [Player.takeDamage]
    rw [halive, hlt]
    simp only [Bool.false_eq_true, if_false, if_pos hWin]

theorem C4_witness :
    (⟨100, false, 0⟩ : PlayerState).isDead = false ∧
    ¬((2000 : ℤ) - (⟨100, false, 0⟩ : PlayerState).lastDamageTime <
      damageInvincibilityTime) ∧
    ((2000 : ℤ) ≤ 2300) ∧ ((2300 : ℤ) - 2000 < damageInvincibilityTime) ∧
    Player.takeDamage (Player.takeDamage ⟨100, false, 0⟩ 10 2000) 50 2300 =
      Player.takeDamage ⟨100, false, 0⟩ 10 2000 :=
  ⟨rfl, by decide, by decide, by decide,
    C4_invincibility_applies_once ⟨100, false, 0⟩ 10 50 2000 2300 rfl
      (by decide) (by decide) (by decide)⟩

/-- C5: a `takeDamage` that drives a living agent's health from > 0 to ≤ 0
clamps health at 0, marks it dead and returns `killed = true`; every
subsequent `takeDamage` on the dead agent changes nothing and returns
`false`. -/
theorem C5_kill_exactly_once (s : ZombieHealthState) (amount : ℚ)
    (hAlive : s.isDead = false) (hPos : 0 < s.health)
    (hKill : s.health - amount ≤ 0) :
    Zombie.takeDamage s amount = (⟨0, true⟩, true) ∧
    ∀ a, Zombie.takeDamage ⟨0, true⟩ a = (⟨0, true⟩, false) := by
  constructor
  · unfold Zombie.takeDamage
    simp only [hAlive, Bool.false_eq_true, if_false]
    rw [if_pos hKill]
  · intro a
    rfl

theorem C5_witness :
    (⟨100, false⟩ : ZombieHealthState).isDead = false ∧ ((0 : ℚ) < 100) ∧
    ((100 : ℚ) - 150 ≤ 0) ∧
    Zombie.takeDamage ⟨100, false⟩ 150 = (⟨0, true⟩, true) ∧
    Zombie.takeDamage ⟨0, true⟩ 999 = (⟨0, true⟩, false) :=
  ⟨rfl, by norm_num, by norm_num,
    (C5_kill_exactly_once ⟨100, false⟩ 150 rfl (by norm_num) (by norm_num)).1,
    (C5_kill_exactly_once ⟨100, false⟩ 150 rfl (by norm_num) (by norm_num)).2 999⟩

/-- C6: for every wave number N ≥ 1 the computed `WaveConfig` has kind
proportions summing to 1, and its spawn rate never exceeds the fixed
ceiling 4, however large N is. -/
theorem C6_wave_config_invariants (waveNumber : ℕ) (h : 1 ≤ waveNumber) :
    (getWaveConfig waveNumber).walkerPercent +
      (getWaveConfig waveNumber).runnerPercent +
      (getWaveConfig waveNumber).tankPercent = 1 ∧
    (getWaveConfig waveNumber).spawnRate ≤ 4 := by
  unfold getWaveConfig
  split_ifs <;> exact ⟨by norm_num, min_le_right _ _⟩

theorem C6_witness :
    (1 : ℕ) ≤ 1 ∧
    ((getWaveConfig 1).walkerPercent + (getWaveConfig 1).runnerPercent +
        (getWaveConfig 1).tankPercent = 1 ∧
      (getWaveConfig 1).spawnRate ≤ 4) :=
  ⟨le_refl 1, C6_wave_config_invariants 1 (le_refl 1)⟩

/-- C7: in every state reachable within a wave, the number of agents spawned
never exceeds the wave's total, and the wave-complete check can only fire
when exactly the full total has been spawned and no live agent remains. -/
theorem C7_wave_complete_only_when_fully_spawned (T : ℕ) (s : WaveState)
    (hreach : WaveReachable T s) :
    s.zombiesSpawnedInWave ≤ s.totalZombies ∧
    (waveCompleteCheck s = true →
      s.zombiesSpawnedInWave = s.totalZombies ∧ s.liveZombies = 0) := by
  induction hreach with
  | start =>
    refine ⟨Nat.zero_le _, fun hc => ?_⟩
    simp only [waveCompleteCheck, Bool.and_eq_true, beq_iff_eq,
      decide_eq_true_eq] at hc
    obtain ⟨-, hT⟩ := hc
    exact ⟨(show (0 : ℕ) = T by omega), rfl⟩
  | @spawn s' _ ih =>
    unfold spawnTimerTick
    split_ifs with hlt
    · refine ⟨?_, fun hc => ?_⟩
      · show s'.zombiesSpawnedInWave + 1 ≤ s'.totalZombies
        omega
      · simp only [waveCompleteCheck, Bool.and_eq_true, beq_iff_eq,
          decide_eq_true_eq] at hc
        obtain ⟨⟨_, hlive⟩, hsp⟩ := hc
        exact absurd hlive (by omega)
    · exact ih
  | @remove s' _ ih =>
    unfold removeZombie
    refine ⟨ih.1, fun hc => ?_⟩
    simp only [waveCompleteCheck, Bool.and_eq_true, beq_iff_eq,
      decide_eq_true_eq] at hc
    obtain ⟨⟨_, hlive⟩, hsp⟩ := hc
    exact ⟨le_antisymm ih.1 hsp, hlive⟩

theorem C7_witness :
    waveCompleteCheck
      (removeZombie (removeZombie
        (spawnTimerTick (spawnTimerTick ⟨0, 2, 0, true⟩)))) = true ∧
    (removeZombie (removeZombie
        (spawnTimerTick (spawnTimerTick ⟨0, 2, 0, true⟩)))).zombiesSpawnedInWave =
      (removeZombie (removeZombie
        (spawnTimerTick (spawnTimerTick ⟨0, 2, 0, true⟩)))).totalZombies ∧
    (removeZombie (removeZombie
        (spawnTimerTick (spawnTimerTick ⟨0, 2, 0, true⟩)))).liveZombies = 0 :=
  ⟨by decide,
    (C7_wave_complete_only_when_fully_spawned 2 _
      (WaveReachable.remove (WaveReachable.remove
        (WaveReachable.spawn (WaveReachable.spawn WaveReachable.start))))).2
      (by decide)⟩

/-- C9: whatever the zombie kind and however many zombies crowd the player,
the damage `attackPlayer` passes to the defender is at most 30, because the
base damage is first capped at 10 and the swarm multiplier at 3.0. -/
theorem C9_attack_damage_at_most_30 (type : ZombieType)
    (zombies : List ZombieRef) (playerPosition : Vec3) :
    attackDamagePassed type zombies playerPosition ≤ 30 := by
  unfold attackDamagePassed adjustedDamage
  rw [Int.ceil_le]
  push_cast
  have h1 : cappedBaseDamage type ≤ 10 := min_le_right _ _
  have h0 : 0 ≤ cappedBaseDamage type := by
    cases type <;> norm_num [cappedBaseDamage, getZombieProperties]
  have h2 : swarmMultiplier (nearbyZombiesCount zombies playerPosition) ≤ 3 := by
    have hle := min_le_left (3.0 : ℚ)
      (1 + (nearbyZombiesCount zombies playerPosition : ℚ) * 0.1)
    calc swarmMultiplier (nearbyZombiesCount zombies playerPosition)
        ≤ 3.0 := hle
      _ = 3 := by norm_num
  have h3 : 0 ≤ swarmMultiplier (nearbyZombiesCount zombies playerPosition) :=
    le_min (by norm_num) (by positivity)
  nlinarith

/-- C10: a `takeDamage` call arriving while the invincibility window is
active leaves the whole defender state — health, `isDead`, and in particular
`lastDamageTime` — unchanged, so a suppressed hit never restarts the
window. -/
theorem C10_suppressed_hit_changes_nothing (s : PlayerState) (amount : ℚ)
    (currentTime : ℤ)
    (hWin : currentTime - s.lastDamageTime < damageInvincibilityTime) :
    Player.takeDamage s amount currentTime = s := by
  unfold Player.takeDamage
  split_ifs with h1
  · rfl
  · rfl

/-- C8 (amended): a pursuing agent that starts one movement update strictly
outside its attack range is still at distance **at least** `attackRange`
after the update, in direct pursuit, congestion/formation mode, and
pairwise-repulsion mode alike (a single step never carries it strictly
inside the attack range, though it can land exactly on the boundary); and in
direct pursuit, when the remaining gap to `attackRange` is smaller than one
tick's travel distance, the agent moves exactly 90% of the remaining gap,
straight towards the defender. -/
theorem C8_single_step_never_enters_attack_range (type : ZombieType)
    (p q : Vec3) (health deltaTime rand1 rand2 : ℝ) (others : List Vec3)
    (h : ((getZombieProperties type).attackRange : ℝ) < dist3 p q) :
    ((getZombieProperties type).attackRange : ℝ) ≤
      dist3 (moveTowardsPlayer type p q health deltaTime rand1 rand2 others) q ∧
    (dist3 p q - ((getZombieProperties type).attackRange : ℝ) <
        max (((getZombieProperties type).moveSpeed : ℝ) * deltaTime) 0.01 →
      ¬(2 < (others.filter (fun o => decide (dist3 (prospect90 type p q) o <
          1.5 * (0.8 + min (dist3 p q / 30) 1.5) * 1.5))).length ∧
          dist3 p q < 10) →
      (∀ cz cd, findClosest (prospect90 type p q) others = some (cz, cd) →
        1.5 * (0.8 + min (dist3 p q / 30) 1.5) ≤ cd) →
      moveTowardsPlayer type p q health deltaTime rand1 rand2 others =
        prospect90 type p q) :=
  ⟨moveTowardsPlayer_keeps_range type p q health deltaTime rand1 rand2 others h,
    fun hgap hcong hclosest => moveTowardsPlayer_direct_90 type p q health
      deltaTime rand1 rand2 others h hgap hcong hclosest⟩

theorem C8_witness :
    ((getZombieProperties ZombieType.WALKER).attackRange : ℝ) <
      dist3 ⟨8, 0, 0⟩ ⟨0, 0, 0⟩ ∧
    ((getZombieProperties ZombieType.WALKER).attackRange : ℝ) ≤
      dist3 (moveTowardsPlayer ZombieType.WALKER ⟨8, 0, 0⟩ ⟨0, 0, 0⟩ 100 0.016
        0.5 0.5 []) ⟨0, 0, 0⟩ := by
  have hd : dist3 (⟨8, 0, 0⟩ : Vec3) ⟨0, 0, 0⟩ = 8 := by
    simp only [dist3, vsub, norm3]
    rw [show ((8 : ℝ) - 0) ^ 2 + ((0 : ℝ) - 0) ^ 2 + ((0 : ℝ) - 0) ^ 2 = 8 ^ 2
      by norm_num]
    exact Real.sqrt_sq (by norm_num)
  have h : ((getZombieProperties ZombieType.WALKER).attackRange : ℝ) <
      dist3 ⟨8, 0, 0⟩ ⟨0, 0, 0⟩ := by
    rw [hd]
    norm_num [getZombieProperties]
  exact ⟨h, (C8_single_step_never_enters_attack_range ZombieType.WALKER
    ⟨8, 0, 0⟩ ⟨0, 0, 0⟩ 100 0.016 0.5 0.5 [] h).1⟩

/-- C8 (counterexample to the claim as stated): a Walker in direct pursuit at
distance exactly `attackRange + one tick's travel` (5.032 = 5 + 2·0.016)
takes the full step and lands exactly **on** the attack range, so its
distance after the update does not strictly exceed `attackRange`. -/
theorem C8_counterexample :
    ((getZombieProperties ZombieType.WALKER).attackRange : ℝ) <
      dist3 ⟨5.032, 0, 0⟩ ⟨0, 0, 0⟩ ∧
    dist3 (moveTowardsPlayer ZombieType.WALKER ⟨5.032, 0, 0⟩ ⟨0, 0, 0⟩ 100
        0.016 0.5 0.5 []) ⟨0, 0, 0⟩ =
      ((getZombieProperties ZombieType.WALKER).attackRange : ℝ) ∧
    ¬(((getZombieProperties ZombieType.WALKER).attackRange : ℝ) <
      dist3 (moveTowardsPlayer ZombieType.WALKER ⟨5.032, 0, 0⟩ ⟨0, 0, 0⟩ 100
        0.016 0.5 0.5 []) ⟨0, 0, 0⟩) := by
  have hR : ((getZombieProperties ZombieType.WALKER).attackRange : ℝ) = 5 := by
    norm_num [getZombieProperties]
  have hspeed : ((getZombieProperties ZombieType.WALKER).moveSpeed : ℝ) = 2 := by
    norm_num [getZombieProperties]
  have hd : dist3 (⟨5.032, 0, 0⟩ : Vec3) ⟨0, 0, 0⟩ = 5.032 := by
    simp only [dist3, vsub, norm3]
    rw [show ((5.032 : ℝ) - 0) ^ 2 + ((0 : ℝ) - 0) ^ 2 + ((0 : ℝ) - 0) ^ 2 =
      5.032 ^ 2 by norm_num]
    exact Real.sqrt_sq (by norm_num)
  have hnorm : norm3 (vsub ⟨0, 0, 0⟩ ⟨5.032, 0, 0⟩) = 5.032 := by
    simp only [vsub, norm3]
    rw [show ((0 : ℝ) - 5.032) ^ 2 + ((0 : ℝ) - 0) ^ 2 + ((0 : ℝ) - 0) ^ 2 =
      5.032 ^ 2 by norm_num]
    exact Real.sqrt_sq (by norm_num)
  have hdir : normalize3 (vsub ⟨0, 0, 0⟩ ⟨5.032, 0, 0⟩) = ⟨-1, 0, 0⟩ := by
    simp only [normalize3]
    rw [hnorm]
    simp only [vsub]
    congr 1 <;> norm_num
  have hmax : max ((2 : ℝ) * 0.016) 0.01 = 0.032 := by
    rw [max_eq_left (by norm_num)]
    norm_num
  have hfc : ∀ v : Vec3, findClosest v [] = none := fun _ => rfl
  have hmove : moveTowardsPlayer ZombieType.WALKER ⟨5.032, 0, 0⟩ ⟨0, 0, 0⟩ 100
      0.016 0.5 0.5 [] = ⟨5.032 + -1 * 0.032, 0, 0 + 0 * 0.032⟩ := by
    simp only [moveTowardsPlayer, hd, hdir, hspeed, hR, List.filter_nil,
      List.length_nil, hmax]
    rw [if_neg (by norm_num : ¬((5.032 : ℝ) ≤ 5)),
      if_neg (by norm_num : ¬((5.032 : ℝ) - 5 < 0.032)),
      if_neg (by norm_num : ¬((2 : ℕ) < 0 ∧ (5.032 : ℝ) < 10)), hfc]
  have hfinal : dist3 (⟨5.032 + -1 * 0.032, 0, 0 + 0 * 0.032⟩ : Vec3)
      ⟨0, 0, 0⟩ = 5 := by
    simp only [dist3, vsub, norm3]
    rw [show ((5.032 + -1 * 0.032 : ℝ) - 0) ^ 2 + ((0 : ℝ) - 0) ^ 2 +
      (((0 : ℝ) + 0 * 0.032) - 0) ^ 2 = 5 ^ 2 by norm_num]
    exact Real.sqrt_sq (by norm_num)
  refine ⟨?_, ?_, ?_⟩
  · rw [hd, hR]
    norm_num
  · rw [hmove, hfinal, hR]
  · rw [hmove, hfinal, hR]
    exact lt_irrefl 5

theorem C10_witness :
    ((5500 : ℤ) - (⟨90, false, 5000⟩ : PlayerState).lastDamageTime <
      damageInvincibilityTime) ∧
    Player.takeDamage ⟨90, false, 5000⟩ 50 5500 = ⟨90, false, 5000⟩ :=
  ⟨by decide, C10_suppressed_hit_changes_nothing ⟨90, false, 5000⟩ 50 5500
    (by decide)⟩

end ZombieShooter
